import Mathlib

/-!
Shallow embedding of the signal-generation and order-decision engine of
`backtestin01.py` (an MT5 technical-trading bot), together with proofs of
the specified properties.

Prices are modelled as exact rationals.  Pandas/NumPy `NaN` values (which
arise from `shift(1)` at index 0) are modelled by `Option ℚ`:
  * a comparison against `NaN` is `False` (pandas semantics),
  * `np.maximum` propagates `NaN`,
  * a pandas rolling mean with `min_periods=1` skips `NaN` entries and
    returns `NaN` when the window holds no valid entry.
-/

namespace Backtest

/-- One OHLCV price candle (`rates` row of the data feed). -/
structure Candle where
  open_ : ℚ
  high : ℚ
  low : ℚ
  close : ℚ
  volume : ℚ
deriving DecidableEq, Repr

instance : Inhabited Candle := ⟨⟨0, 0, 0, 0, 0⟩⟩

/-- The candle series `df`: index 0 is the oldest candle. -/
abbrev CandleSeries := List Candle

/-- Column `df['high']` at index `i`. -/
def highAt (df : CandleSeries) (i : ℕ) : ℚ := (df.getD i default).high

/-- Column `df['low']` at index `i`. -/
def lowAt (df : CandleSeries) (i : ℕ) : ℚ := (df.getD i default).low

/-- Column `df['close']` at index `i`. -/
def closeAt (df : CandleSeries) (i : ℕ) : ℚ := (df.getD i default).close

/-- Pandas `series.shift(1)` of a per-index column: `NaN` (= `none`) at
index 0, the previous value elsewhere. -/
def shift1 (f : ℕ → ℚ) (i : ℕ) : Option ℚ :=
  if i = 0 then none else some (f (i - 1))

/-- Pandas comparison `a > b` where `a` may be `NaN`: `NaN > b` is false. -/
def nanGt (a : Option ℚ) (b : ℚ) : Bool :=
  match a with
  | none => false
  | some x => decide (x > b)

/-- Pandas comparison `a < b` where `a` may be `NaN`: `NaN < b` is false. -/
def nanLt (a : Option ℚ) (b : ℚ) : Bool :=
  match a with
  | none => false
  | some x => decide (x < b)

/-- Source `detect_inside_bar`:
`df['inside_bar'] = (high.shift(1) > high) & (low.shift(1) < low)`. -/
def inside_bar (df : CandleSeries) (i : ℕ) : Bool :=
  nanGt (shift1 (highAt df) i) (highAt df i) && nanLt (shift1 (lowAt df) i) (lowAt df i)

/-- Pandas `series.max()` for a nonempty list of values. -/
def listMax : List ℚ → ℚ
  | [] => 0
  | x :: xs => xs.foldl max x

/-- Pandas `series.min()` for a nonempty list of values. -/
def listMin : List ℚ → ℚ
  | [] => 0
  | x :: xs => xs.foldl min x

/-- Source `detect_orb`: high of the opening range `df.iloc[:range_minutes]`. -/
def openingHigh (df : CandleSeries) (range_minutes : ℕ) : ℚ :=
  listMax ((df.take range_minutes).map Candle.high)

/-- Source `detect_orb`: low of the opening range `df.iloc[:range_minutes]`. -/
def openingLow (df : CandleSeries) (range_minutes : ℕ) : ℚ :=
  listMin ((df.take range_minutes).map Candle.low)

/-- Source `detect_orb`: `df['orb_long'] = df['high'] > high` (default
`range_minutes=5`). -/
def orb_long (df : CandleSeries) (i : ℕ) : Bool :=
  decide (highAt df i > openingHigh df 5)

/-- Source `detect_orb`: `df['orb_short'] = df['low'] < low`. -/
def orb_short (df : CandleSeries) (i : ℕ) : Bool :=
  decide (lowAt df i < openingLow df 5)

/-- Source `calculate_rsi`: `delta = df['close'].diff()` (`NaN` at index 0). -/
def delta (df : CandleSeries) (i : ℕ) : Option ℚ :=
  if i = 0 then none else some (closeAt df i - closeAt df (i - 1))

/-- Source `calculate_rsi`: `gain = np.where(delta > 0, delta, 0)`; the `NaN`
comparison at index 0 is false, so `gain[0] = 0`. -/
def gain (df : CandleSeries) (i : ℕ) : ℚ :=
  match delta df i with
  | none => 0
  | some d => if d > 0 then d else 0

/-- Source `calculate_rsi`: `loss = np.where(delta < 0, -delta, 0)`. -/
def loss (df : CandleSeries) (i : ℕ) : ℚ :=
  match delta df i with
  | none => 0
  | some d => if d < 0 then -d else 0

/-- Indices covered by `rolling(window=w, min_periods=1)` at index `i`:
the `min w (i+1)` indices ending at `i`. -/
def rollIdx (w i : ℕ) : List ℕ :=
  (List.range (min w (i + 1))).map (fun j => i + 1 - min w (i + 1) + j)

/-- Pandas `rolling(window=w, min_periods=1).mean()` of a `NaN`-free column. -/
def rollMean (f : ℕ → ℚ) (w i : ℕ) : ℚ :=
  ((rollIdx w i).map f).sum / (min w (i + 1) : ℚ)

/-- Source `calculate_rsi`: `avg_gain` with `period=14`. -/
def avg_gain (df : CandleSeries) (i : ℕ) : ℚ := rollMean (gain df) 14 i

/-- Source `calculate_rsi`: `avg_loss` with `period=14`. -/
def avg_loss (df : CandleSeries) (i : ℕ) : ℚ := rollMean (loss df) 14 i

/-- Source `calculate_rsi`: `rs = avg_gain / (avg_loss + 1e-6)`. -/
def rs (df : CandleSeries) (i : ℕ) : ℚ :=
  avg_gain df i / (avg_loss df i + 1 / 1000000)

/-- Source `calculate_rsi`: `df['rsi'] = 100 - (100 / (1 + rs))`. -/
def rsi (df : CandleSeries) (i : ℕ) : ℚ :=
  100 - 100 / (1 + rs df i)

/-- Pandas `ewm(span, adjust=False).mean()` of a per-index column, seeded with the
first value: `y[0] = f 0`, `y[i+1] = α·f (i+1) + (1−α)·y[i]` with
`α = 2/(span+1)`. -/
def emaAt (α : ℚ) (f : ℕ → ℚ) : ℕ → ℚ
  | 0 => f 0
  | i + 1 => α * f (i + 1) + (1 - α) * emaAt α f i

/-- Source `calculate_macd`: `macd_line = ewm(span=12) − ewm(span=26)` of close. -/
def macd_line (df : CandleSeries) (i : ℕ) : ℚ :=
  emaAt (2 / 13) (closeAt df) i - emaAt (2 / 27) (closeAt df) i

/-- Source `calculate_macd`: `macd_signal = ewm(span=9)` of the MACD line. -/
def macd_signal (df : CandleSeries) (i : ℕ) : ℚ :=
  emaAt (2 / 10) (macd_line df) i

/-- The defined value of the true range at index `i ≥ 1` (the formula of
`calculate_atr` with a defined previous close). -/
def trval (df : CandleSeries) (i : ℕ) : ℚ :=
  max (highAt df i - lowAt df i)
    (max |highAt df i - closeAt df (i - 1)| |lowAt df i - closeAt df (i - 1)|)

/-- Source `calculate_atr`: `df['tr'] = np.maximum(high − low, np.maximum(|high −
close.shift()|, |low − close.shift()|))`.  At index 0, `close.shift()` is
`NaN` and `np.maximum` propagates it, so `tr[0]` is `NaN`. -/
def tr (df : CandleSeries) (i : ℕ) : Option ℚ :=
  if i = 0 then none else some (trval df i)

/-- Source `calculate_atr`: `df['atr'] = df['tr'].rolling(window=14,
min_periods=1).mean()`.  The pandas rolling mean drops `NaN` entries and
yields `NaN` when no valid entry is in the window. -/
def atr (df : CandleSeries) (i : ℕ) : Option ℚ :=
  let vals := (rollIdx 14 i).filterMap (tr df)
  if vals.isEmpty then none else some (vals.sum / (vals.length : ℚ))

/-- Direction of an order (`ORDER_TYPE_BUY` / `ORDER_TYPE_SELL`). -/
inductive Direction where
  | LONG
  | SHORT
deriving DecidableEq, Repr

/-- A raw signal produced by the scan of `live_trading`, before risk
adjustment: one `place_trade` call. -/
structure TradeIntent where
  direction : Direction
  index : ℕ
  reference_price : ℚ
  raw_stop : ℚ
  raw_target : ℚ
  rationale : String
deriving DecidableEq, Repr

/-- The `place_trade` calls issued at index `i` of the scan loop of
`live_trading` (body of `for i in range(1, len(df))`). -/
def intentsAt (df : CandleSeries) (i : ℕ) : List TradeIntent :=
  let price := closeAt df i
  (if inside_bar df i && decide (price > highAt df (i - 1)) then
    [⟨.LONG, i, price, lowAt df (i - 1),
      price + (price - lowAt df (i - 1)) * 2, "Inside Bar Breakout"⟩]
  else []) ++
  (if orb_long df i then
    [⟨.LONG, i, price, lowAt df (i - 1),
      price + (price - lowAt df (i - 1)) * 2, "Opening Range Breakout"⟩]
  else []) ++
  (if orb_short df i then
    [⟨.SHORT, i, price, highAt df (i - 1),
      price - (highAt df (i - 1) - price) * 2, "Opening Range Breakout"⟩]
  else [])

/-- The full signal scan of `live_trading` over one candle series:
indices `1 .. len(df) − 1`. -/
def scan (df : CandleSeries) : List TradeIntent :=
  (List.range (df.length - 1)).flatMap (fun k => intentsAt df (k + 1))

/-- Venue metadata (`mt5.symbol_info`): visibility flag and the minimum
stop-distance ingredients. -/
structure SymbolInfo where
  visible : Bool
  trade_stops_level : ℚ
  point : ℚ
deriving DecidableEq, Repr

/-- Source `is_market_open`: false when the lookup failed (`None`) or the symbol
is not visible. -/
def is_market_open (info : Option SymbolInfo) : Bool :=
  match info with
  | none => false
  | some si => si.visible

/-- Source `adjust_sl_tp` given the result of its own `mt5.symbol_info` lookup:
returns `none` (the `(None, None)` pair) on lookup failure, otherwise the
clamped `(sl, tp)`. -/
def adjust_sl_tp (info : Option SymbolInfo) (price sl tp : ℚ) : Option (ℚ × ℚ) :=
  match info with
  | none => none
  | some si =>
    let min_distance := si.trade_stops_level * si.point
    let sl' := if |price - sl| < min_distance then
        (if sl < price then price - min_distance else price + min_distance)
      else sl
    let tp' := if |price - tp| < min_distance then
        (if tp > price then price + min_distance else price - min_distance)
      else tp
    some (sl', tp')

/-- The order request handed to `mt5.order_send`. -/
structure OrderSpec where
  direction : Direction
  price : ℚ
  sl : ℚ
  tp : ℚ
  volume : ℚ
  comment : String
deriving DecidableEq, Repr

/-- Outcome of one `place_trade` call. -/
inductive PlaceResult where
  | skippedClosed
  | skippedInvalidSlTp
  | order (spec : OrderSpec)
deriving DecidableEq, Repr

/-- Source `place_trade`: the two `mt5.symbol_info` lookups (one inside
`is_market_open`, one inside `adjust_sl_tp`) are separate venue calls and
are passed separately. -/
def place_trade (infoOpen infoAdjust : Option SymbolInfo)
    (order_type : String) (price sl tp lot_size : ℚ) (reason : String) :
    PlaceResult :=
  if !is_market_open infoOpen then .skippedClosed
  else
    match adjust_sl_tp infoAdjust price sl tp with
    | none => .skippedInvalidSlTp
    | some (sl', tp') =>
      .order ⟨if order_type = "BUY" then .LONG else .SHORT,
        price, sl', tp', lot_size, reason⟩

/-- A candle with the given high/low/close (open and volume unused by the
engine's decision logic). -/
def mkCandle (h l c : ℚ) : Candle := ⟨0, h, l, c, 0⟩

/-- A concrete 10-candle series: candle 5 is strictly inside candle 4's
range and closes above candle 4's high. -/
def exDf : CandleSeries :=
  [mkCandle 2 1 1, mkCandle 2 1 1, mkCandle 2 1 1,
   mkCandle 2 1 1, mkCandle 10 0 5, mkCandle 9 1 11,
   mkCandle 2 1 1, mkCandle 2 1 1, mkCandle 2 1 1,
   mkCandle 2 1 1]

/-- A concrete 2-candle series used to evaluate the ATR column. -/
def exC4 : CandleSeries := [mkCandle 3 1 2, mkCandle 5 2 4]

/-- A concrete OHLC-consistent 6-candle series whose last candle breaks
above the opening range. -/
def exOhlc : CandleSeries :=
  [mkCandle 2 1 1, mkCandle 2 1 1, mkCandle 2 1 1, mkCandle 2 1 1,
   mkCandle 2 1 1, mkCandle 5 3 4]

/-- A concrete 6-candle series whose last candle breaks below the opening
range. -/
def exOrbShort : CandleSeries :=
  [mkCandle 2 1 1, mkCandle 2 1 1, mkCandle 2 1 1, mkCandle 2 1 1,
   mkCandle 2 1 1, mkCandle 2 0 1]

/-! ## Helper lemmas -/

lemma getD_take_eq (df : CandleSeries) (n j : ℕ) (hj : j < n) :
    (df.take n).getD j default = df.getD j default := by
  rw [List.getD_eq_getElem?_getD, List.getD_eq_getElem?_getD, List.getElem?_take,
    if_pos hj]

lemma highAt_take {df : CandleSeries} {n j : ℕ} (hj : j < n) :
    highAt (df.take n) j = highAt df j := by
  unfold highAt; rw [getD_take_eq df n j hj]

lemma lowAt_take {df : CandleSeries} {n j : ℕ} (hj : j < n) :
    lowAt (df.take n) j = lowAt df j := by
  unfold lowAt; rw [getD_take_eq df n j hj]

lemma closeAt_take {df : CandleSeries} {n j : ℕ} (hj : j < n) :
    closeAt (df.take n) j = closeAt df j := by
  unfold closeAt; rw [getD_take_eq df n j hj]

lemma le_foldl_max (a : ℚ) (l : List ℚ) : a ≤ l.foldl max a := by
  induction l generalizing a with
  | nil => exact le_rfl
  | cons b l ih => exact le_trans (le_max_left a b) (ih (max a b))

lemma foldl_min_le (a : ℚ) (l : List ℚ) : l.foldl min a ≤ a := by
  induction l generalizing a with
  | nil => exact le_rfl
  | cons b l ih => exact le_trans (ih (min a b)) (min_le_left a b)

lemma foldl_max_mono (l : List ℚ) {a b : ℚ} (h : a ≤ b) :
    l.foldl max a ≤ l.foldl max b := by
  induction l generalizing a b with
  | nil => exact h
  | cons c l ih => exact ih (max_le_max h le_rfl)

lemma foldl_min_mono (l : List ℚ) {a b : ℚ} (h : a ≤ b) :
    l.foldl min a ≤ l.foldl min b := by
  induction l generalizing a b with
  | nil => exact h
  | cons c l ih => exact ih (min_le_min h le_rfl)

lemma le_listMax {x : ℚ} {l : List ℚ} (h : x ∈ l) : x ≤ listMax l := by
  induction l with
  | nil => cases h
  | cons a l ih =>
    rcases List.mem_cons.1 h with rfl | h
    · exact le_foldl_max x l
    · calc x ≤ listMax l := ih h
        _ ≤ listMax (a :: l) := by
          cases l with
          | nil => cases h
          | cons b t =>
            show (t.foldl max b : ℚ) ≤ (b :: t).foldl max a
            simp only [List.foldl_cons]
            exact foldl_max_mono t (le_max_right a b)

lemma listMin_le {x : ℚ} {l : List ℚ} (h : x ∈ l) : listMin l ≤ x := by
  induction l with
  | nil => cases h
  | cons a l ih =>
    rcases List.mem_cons.1 h with rfl | h
    · exact foldl_min_le x l
    · calc listMin (a :: l)
          ≤ listMin l := by
            cases l with
            | nil => cases h
            | cons b t =>
              show ((b :: t).foldl min a : ℚ) ≤ t.foldl min b
              simp only [List.foldl_cons]
              exact foldl_min_mono t (min_le_right a b)
        _ ≤ x := ih h

lemma getD_mem_take {df : CandleSeries} {n j : ℕ} (hjn : j < n) (hj : j < df.length) :
    df.getD j default ∈ df.take n := by
  have hlen : j < (df.take n).length := by
    rw [List.length_take]; exact lt_min hjn hj
  have h1 : (df.take n)[j] ∈ df.take n := List.getElem_mem hlen
  rwa [List.getElem_take, ← List.getD_eq_getElem df default hj] at h1

lemma le_openingHigh {df : CandleSeries} {j : ℕ} (hj5 : j < 5) (hj : j < df.length) :
    highAt df j ≤ openingHigh df 5 := by
  unfold openingHigh highAt
  exact le_listMax (List.mem_map_of_mem Candle.high (getD_mem_take hj5 hj))

lemma openingLow_le {df : CandleSeries} {j : ℕ} (hj5 : j < 5) (hj : j < df.length) :
    openingLow df 5 ≤ lowAt df j := by
  unfold openingLow lowAt
  exact listMin_le (List.mem_map_of_mem Candle.low (getD_mem_take hj5 hj))

lemma rollIdx_le {w i k : ℕ} (h : k ∈ rollIdx w i) : k ≤ i := by
  unfold rollIdx at h
  simp only [List.mem_map, List.mem_range] at h
  obtain ⟨j, hj, rfl⟩ := h
  omega

lemma rollMean_congr {f g : ℕ → ℚ} {w i : ℕ} (h : ∀ k ≤ i, f k = g k) :
    rollMean f w i = rollMean g w i := by
  unfold rollMean
  congr 1
  exact congrArg List.sum
    (List.map_congr_left (fun k hk => h k (rollIdx_le hk)))

lemma emaAt_congr {α : ℚ} {f g : ℕ → ℚ} :
    ∀ {i : ℕ}, (∀ k ≤ i, f k = g k) → emaAt α f i = emaAt α g i := by
  intro i
  induction i with
  | zero => intro h; simpa [emaAt] using h 0 le_rfl
  | succ i ih =>
    intro h
    simp only [emaAt]
    rw [h (i + 1) le_rfl, ih (fun k hk => h k (le_trans hk (Nat.le_succ i)))]

lemma gain_take {df : CandleSeries} {i k : ℕ} (hk : k ≤ i) :
    gain (df.take (i + 1)) k = gain df k := by
  unfold gain delta
  rcases Nat.eq_zero_or_pos k with rfl | hk0
  · rfl
  · rw [if_neg (by omega), if_neg (by omega),
      closeAt_take (by omega), closeAt_take (by omega)]

lemma loss_take {df : CandleSeries} {i k : ℕ} (hk : k ≤ i) :
    loss (df.take (i + 1)) k = loss df k := by
  unfold loss delta
  rcases Nat.eq_zero_or_pos k with rfl | hk0
  · rfl
  · rw [if_neg (by omega), if_neg (by omega),
      closeAt_take (by omega), closeAt_take (by omega)]

lemma trval_take {df : CandleSeries} {i k : ℕ} (hk : k ≤ i) :
    trval (df.take (i + 1)) k = trval df k := by
  unfold trval
  rw [highAt_take (by omega), lowAt_take (by omega), closeAt_take (by omega)]

lemma tr_take {df : CandleSeries} {i k : ℕ} (hk : k ≤ i) :
    tr (df.take (i + 1)) k = tr df k := by
  unfold tr
  rcases Nat.eq_zero_or_pos k with rfl | hk0
  · rfl
  · rw [if_neg (by omega), if_neg (by omega), trval_take hk]

lemma filterMap_eq_map_of_some {α β : Type} (f : α → Option β) (g : α → β)
    (l : List α) (h : ∀ x ∈ l, f x = some (g x)) : l.filterMap f = l.map g := by
  induction l with
  | nil => rfl
  | cons a l ih =>
    rw [List.filterMap_cons, h a (List.mem_cons_self a l), List.map_cons,
      ih (fun x hx => h x (List.mem_cons_of_mem a hx))]

lemma flatMap_eq_nil_of {α β : Type} (f : α → List β) (l : List α)
    (h : ∀ x ∈ l, f x = []) : l.flatMap f = [] := by
  induction l with
  | nil => rfl
  | cons a l ih =>
    rw [List.flatMap_cons, h a (List.mem_cons_self a l),
      ih (fun x hx => h x (List.mem_cons_of_mem a hx)), List.nil_append]

lemma intentsAt_index {df : CandleSeries} {i : ℕ} {t : TradeIntent}
    (h : t ∈ intentsAt df i) : t.index = i := by
  unfold intentsAt at h
  rcases List.mem_append.1 h with h | h
  · rcases List.mem_append.1 h with h | h
    · split at h
      · rw [List.mem_singleton.1 h]
      · cases h
    · split at h
      · rw [List.mem_singleton.1 h]
      · cases h
  · split at h
    · rw [List.mem_singleton.1 h]
    · cases h

lemma filter_intentsAt_self (df : CandleSeries) (i : ℕ) :
    (intentsAt df i).filter (fun t => t.index == i) = intentsAt df i :=
  List.filter_eq_self.2 (fun t ht => by simp [intentsAt_index ht])

lemma filter_intentsAt_ne (df : CandleSeries) {i k : ℕ} (h : k ≠ i) :
    (intentsAt df k).filter (fun t => t.index == i) = [] :=
  List.filter_eq_nil_iff.2 (fun t ht => by simp [intentsAt_index ht, h])

lemma filter_scan_eq (df : CandleSeries) (i : ℕ) (h1 : 1 ≤ i)
    (h2 : i < df.length) :
    (scan df).filter (fun t => t.index == i) = intentsAt df i := by
  unfold scan
  have key : ∀ n : ℕ, i - 1 < n →
      ((List.range n).flatMap (fun k => intentsAt df (k + 1))).filter
        (fun t => t.index == i) = intentsAt df i := by
    intro n
    induction n with
    | zero => omega
    | succ n ih =>
      intro hn
      rw [List.range_succ, List.flatMap_append, List.filter_append]
      by_cases hn' : i - 1 < n
      · rw [ih hn']
        have : n + 1 ≠ i := by omega
        simp only [List.flatMap_cons, List.flatMap_nil, List.append_nil]
        rw [filter_intentsAt_ne df this, List.append_nil]
      · have hni : n = i - 1 := by omega
        have hfil : ((List.range n).flatMap (fun k => intentsAt df (k + 1))).filter
            (fun t => t.index == i) = [] := by
          rw [List.filter_eq_nil_iff]
          intro t ht
          obtain ⟨k, hk, htk⟩ := List.mem_flatMap.1 ht
          have : t.index = k + 1 := intentsAt_index htk
          have : k < n := List.mem_range.1 hk
          simp [intentsAt_index htk]; omega
        rw [hfil, List.nil_append]
        simp only [List.flatMap_cons, List.flatMap_nil, List.append_nil]
        have : n + 1 = i := by omega
        rw [this, filter_intentsAt_self]
  exact key (df.length - 1) (by omega)

lemma adjust_clamp_sl (d price x : ℚ) (hd : 0 ≤ d) :
    d ≤ |price - (if |price - x| < d then
      (if x < price then price - d else price + d) else x)| := by
  split_ifs with h1 h2
  · rw [show price - (price - d) = d from by ring, abs_of_nonneg hd]
  · rw [show price - (price + d) = -d from by ring, abs_neg, abs_of_nonneg hd]
  · exact le_of_not_lt h1

lemma adjust_clamp_tp (d price x : ℚ) (hd : 0 ≤ d) :
    d ≤ |price - (if |price - x| < d then
      (if x > price then price + d else price - d) else x)| := by
  split_ifs with h1 h2
  · rw [show price - (price + d) = -d from by ring, abs_neg, abs_of_nonneg hd]
  · rw [show price - (price - d) = d from by ring, abs_of_nonneg hd]
  · exact le_of_not_lt h1

lemma gain_nonneg (df : CandleSeries) (i : ℕ) : 0 ≤ gain df i := by
  unfold gain
  cases delta df i with
  | none => exact le_rfl
  | some d =>
    dsimp only
    split_ifs with h
    · linarith
    · exact le_rfl

lemma loss_nonneg (df : CandleSeries) (i : ℕ) : 0 ≤ loss df i := by
  unfold loss
  cases delta df i with
  | none => exact le_rfl
  | some d =>
    dsimp only
    split_ifs with h
    · linarith
    · exact le_rfl

lemma rollMean_nonneg {f : ℕ → ℚ} (hf : ∀ k, 0 ≤ f k) (w i : ℕ) :
    0 ≤ rollMean f w i := by
  unfold rollMean
  apply div_nonneg
  · apply List.sum_nonneg
    intro x hx
    obtain ⟨k, _, rfl⟩ := List.mem_map.1 hx
    exact hf k
  · exact_mod_cast Nat.zero_le _

lemma getD_mem {df : CandleSeries} {i : ℕ} (h : i < df.length) :
    df.getD i default ∈ df := by
  rw [List.getD_eq_getElem df default h]
  exact List.getElem_mem h

lemma inside_bar_iff {df : CandleSeries} {i : ℕ} (h : ¬ (i = 0)) :
    inside_bar df i = true ↔
      highAt df (i - 1) > highAt df i ∧ lowAt df (i - 1) < lowAt df i := by
  unfold inside_bar shift1 nanGt nanLt
  simp only [if_neg h]
  simp

lemma rollIdx_full {w i : ℕ} (h : i + 1 ≤ w) : rollIdx w i = List.range (i + 1) := by
  unfold rollIdx
  rw [min_eq_right h, Nat.sub_self]
  simp

lemma filterMap_tr_map_range {df : CandleSeries} {a n : ℕ} (ha : 1 ≤ a) :
    ((List.range n).map (fun j => a + j)).filterMap (tr df) =
    (List.range n).map (fun j => trval df (a + j)) := by
  rw [List.filterMap_map]
  apply filterMap_eq_map_of_some
  intro j hj
  show tr df (a + j) = some (trval df (a + j))
  unfold tr
  rw [if_neg (by omega)]

lemma filterMap_tr_rollIdx (df : CandleSeries) {i : ℕ} (h1 : 1 ≤ i) :
    (rollIdx 14 i).filterMap (tr df) =
    (List.range (min i 14)).map (fun j => trval df (i + 1 - min i 14 + j)) := by
  by_cases hle : i ≤ 13
  · rw [rollIdx_full (by omega), List.range_succ_eq_map,
      List.filterMap_cons_none (show tr df 0 = none from rfl)]
    have hsucc : List.map Nat.succ (List.range i) =
        List.map (fun j => 1 + j) (List.range i) :=
      List.map_congr_left (fun a ha => by omega)
    rw [hsucc, filterMap_tr_map_range le_rfl]
    have hmin : min i 14 = i := by omega
    rw [hmin]
    exact List.map_congr_left (fun a ha => by congr 1; omega)
  · have hmin1 : min 14 (i + 1) = 14 := by omega
    have hmin2 : min i 14 = 14 := by omega
    unfold rollIdx
    rw [hmin1, hmin2]
    exact filterMap_tr_map_range (by omega)

lemma inside_bar_take {df : CandleSeries} {i : ℕ} :
    inside_bar (df.take (i + 1)) i = inside_bar df i := by
  unfold inside_bar shift1
  rcases Nat.eq_zero_or_pos i with rfl | hi
  · rfl
  · have h0 : ¬ (i = 0) := by omega
    simp only [if_neg h0]
    rw [highAt_take (show i - 1 < i + 1 by omega),
      highAt_take (show i < i + 1 by omega),
      lowAt_take (show i - 1 < i + 1 by omega),
      lowAt_take (show i < i + 1 by omega)]

lemma orb_long_take {df : CandleSeries} {i : ℕ} (h : i < df.length) :
    orb_long (df.take (i + 1)) i = orb_long df i := by
  unfold orb_long
  by_cases h4 : 4 ≤ i
  · have htt : (df.take (i + 1)).take 5 = df.take 5 := by
      rw [List.take_take]
      congr 1
      omega
    unfold openingHigh
    rw [htt, highAt_take (show i < i + 1 by omega)]
  · have hlt : i < 5 := by omega
    have hlen' : i < (df.take (i + 1)).length := by
      rw [List.length_take]
      omega
    have hle1 : highAt (df.take (i + 1)) i ≤ openingHigh (df.take (i + 1)) 5 :=
      le_openingHigh hlt hlen'
    have hle2 : highAt df i ≤ openingHigh df 5 := le_openingHigh hlt h
    rw [decide_eq_false (not_lt.2 hle1), decide_eq_false (not_lt.2 hle2)]

lemma orb_short_take {df : CandleSeries} {i : ℕ} (h : i < df.length) :
    orb_short (df.take (i + 1)) i = orb_short df i := by
  unfold orb_short
  by_cases h4 : 4 ≤ i
  · have htt : (df.take (i + 1)).take 5 = df.take 5 := by
      rw [List.take_take]
      congr 1
      omega
    unfold openingLow
    rw [htt, lowAt_take (show i < i + 1 by omega)]
  · have hlt : i < 5 := by omega
    have hlen' : i < (df.take (i + 1)).length := by
      rw [List.length_take]
      omega
    have hle1 : openingLow (df.take (i + 1)) 5 ≤ lowAt (df.take (i + 1)) i :=
      openingLow_le hlt hlen'
    have hle2 : openingLow df 5 ≤ lowAt df i := openingLow_le hlt h
    rw [decide_eq_false (not_lt.2 hle1), decide_eq_false (not_lt.2 hle2)]

lemma rsi_take {df : CandleSeries} {i : ℕ} :
    rsi (df.take (i + 1)) i = rsi df i := by
  unfold rsi rs avg_gain avg_loss
  rw [rollMean_congr (fun k hk => gain_take hk),
    rollMean_congr (fun k hk => loss_take hk)]

lemma macd_line_take_at {df : CandleSeries} {i j : ℕ} (hj : j ≤ i) :
    macd_line (df.take (i + 1)) j = macd_line df j := by
  unfold macd_line
  rw [emaAt_congr (fun k hk => closeAt_take (by omega)),
    emaAt_congr (fun k hk => closeAt_take (by omega))]

lemma macd_signal_take {df : CandleSeries} {i : ℕ} :
    macd_signal (df.take (i + 1)) i = macd_signal df i := by
  unfold macd_signal
  exact emaAt_congr (fun k hk => macd_line_take_at hk)

lemma atr_take {df : CandleSeries} {i : ℕ} :
    atr (df.take (i + 1)) i = atr df i := by
  unfold atr
  rw [List.filterMap_congr (fun k hk => tr_take (rollIdx_le hk))]

/-! ## The claims -/

/-- C1: every OrderSpec handed to the venue adapter by `place_trade` (after
`adjust_sl_tp` succeeds) has its stop and its target at a distance of at
least `trade_stops_level * point` from the entry price, for all input
prices `sl`, `tp` and every nonnegative minimum distance. -/
theorem C1_min_stop_distance (infoOpen : Option SymbolInfo) (si : SymbolInfo)
    (order_type : String) (price sl tp lot_size : ℚ) (reason : String)
    (spec : OrderSpec)
    (hd : 0 ≤ si.trade_stops_level * si.point)
    (h : place_trade infoOpen (some si) order_type price sl tp lot_size reason
      = .order spec) :
    spec.price = price ∧
    si.trade_stops_level * si.point ≤ |spec.price - spec.sl| ∧
    si.trade_stops_level * si.point ≤ |spec.price - spec.tp| := by
  cases hopen : is_market_open infoOpen with
  | false =>
    rw [place_trade, hopen] at h
    simp at h
  | true =>
    rw [place_trade, hopen] at h
    simp only [Bool.not_true, Bool.false_eq_true, if_false, adjust_sl_tp] at h
    rw [PlaceResult.order.injEq] at h
    subst h
    refine ⟨rfl, ?_, ?_⟩
    · exact adjust_clamp_sl _ price sl hd
    · exact adjust_clamp_tp _ price tp hd

/-- C1 witness: a concrete LONG order whose stop was clamped to the minimum
distance. -/
theorem C1_min_stop_distance_witness :
    (0 : ℚ) ≤ (2 : ℚ) * 1 ∧
    place_trade (some ⟨true, 2, 1⟩) (some ⟨true, 2, 1⟩) "BUY"
      100 99 110 1 "Inside Bar Breakout"
      = .order ⟨.LONG, 100, 98, 110, 1, "Inside Bar Breakout"⟩ ∧
    ((⟨.LONG, 100, 98, 110, 1, "Inside Bar Breakout"⟩ :
        OrderSpec).price = 100 ∧
      (2 : ℚ) * 1 ≤ |(⟨.LONG, 100, 98, 110, 1,
        "Inside Bar Breakout"⟩ : OrderSpec).price -
        (⟨.LONG, 100, 98, 110, 1, "Inside Bar Breakout"⟩ :
          OrderSpec).sl| ∧
      (2 : ℚ) * 1 ≤ |(⟨.LONG, 100, 98, 110, 1,
        "Inside Bar Breakout"⟩ : OrderSpec).price -
        (⟨.LONG, 100, 98, 110, 1, "Inside Bar Breakout"⟩ :
          OrderSpec).tp|) :=
  ⟨by norm_num,
    by
      rw [place_trade]
      norm_num [is_market_open, adjust_sl_tp],
    C1_min_stop_distance (some ⟨true, 2, 1⟩) ⟨true, 2, 1⟩ "BUY"
      100 99 110 1 "Inside Bar Breakout" _
      (by norm_num)
      (by
        rw [place_trade]
        norm_num [is_market_open, adjust_sl_tp])⟩

/-- C8: when the instrument is untradable (symbol lookup returns nothing or
the visibility flag is false), `place_trade` returns normally with the
skip outcome and never emits an order, for any direction and prices. -/
theorem C8_untradable_skips (infoOpen infoAdjust : Option SymbolInfo)
    (order_type : String) (price sl tp lot_size : ℚ) (reason : String)
    (h : infoOpen = none ∨ ∃ si, infoOpen = some si ∧ si.visible = false) :
    place_trade infoOpen infoAdjust order_type price sl tp lot_size reason
      = .skippedClosed ∧
    ∀ spec : OrderSpec,
      place_trade infoOpen infoAdjust order_type price sl tp lot_size reason
        ≠ .order spec := by
  have hopen : is_market_open infoOpen = false := by
    rcases h with rfl | ⟨si, rfl, hv⟩
    · rfl
    · simp [is_market_open, hv]
  refine ⟨?_, fun spec => ?_⟩
  · rw [place_trade, hopen]
    simp
  · rw [place_trade, hopen]
    simp

/-- C8 witness: a missing symbol lookup is skipped. -/
theorem C8_untradable_skips_witness :
    place_trade none (some ⟨true, 1, 1⟩) "SELL" 50 49 52 (1 / 50) "x"
      = .skippedClosed ∧
    ∀ spec : OrderSpec,
      place_trade none (some ⟨true, 1, 1⟩) "SELL" 50 49 52 (1 / 50) "x"
        ≠ .order spec :=
  C8_untradable_skips none (some ⟨true, 1, 1⟩) "SELL" 50 49 52 (1 / 50) "x"
    (Or.inl rfl)

/-- C9: when the symbol lookup inside `adjust_sl_tp` fails, the adjustment
reports failure (no adjusted stop/target) and `place_trade` drops the
intent without emitting an order. -/
theorem C9_metadata_failure (infoOpen : Option SymbolInfo)
    (order_type : String) (price sl tp lot_size : ℚ) (reason : String)
    (hopen : is_market_open infoOpen = true) :
    adjust_sl_tp none price sl tp = none ∧
    place_trade infoOpen none order_type price sl tp lot_size reason
      = .skippedInvalidSlTp := by
  refine ⟨rfl, ?_⟩
  rw [place_trade, hopen]
  simp [adjust_sl_tp]

/-- C9 witness: a tradable instrument whose metadata lookup fails during
stop/target adjustment. -/
theorem C9_metadata_failure_witness :
    is_market_open (some ⟨true, 1, 1⟩) = true ∧
    (adjust_sl_tp none 100 95 110 = none ∧
      place_trade (some ⟨true, 1, 1⟩) none "BUY" 100 95 110 (1 / 50) "x"
        = .skippedInvalidSlTp) :=
  ⟨by decide, C9_metadata_failure (some ⟨true, 1, 1⟩) "BUY" 100 95 110
    (1 / 50) "x" (by decide)⟩

/-- C5: `inside_bar` at an index `i ≥ 1` holds exactly when the prior bar's
high is strictly above the current high and the prior bar's low strictly
below the current low; index 0 is never flagged. -/
theorem C5_inside_bar_iff (df : CandleSeries) (i : ℕ) (h : 1 ≤ i) :
    (inside_bar df i = true ↔
      highAt df (i - 1) > highAt df i ∧ lowAt df (i - 1) < lowAt df i) ∧
    inside_bar df 0 = false := by
  exact ⟨inside_bar_iff (by omega), rfl⟩

/-- C5 witness: candle 5 of the example series is an inside bar. -/
theorem C5_inside_bar_iff_witness :
    1 ≤ 5 ∧
    ((inside_bar exDf 5 = true ↔
      highAt exDf 4 > highAt exDf 5 ∧ lowAt exDf 4 < lowAt exDf 5) ∧
    inside_bar exDf 0 = false) :=
  ⟨by decide, C5_inside_bar_iff exDf 5 (by decide)⟩

/-- C3: every derived field is causal: computed over the prefix
`candles[0..i]` alone, the value at index `i` agrees with the value
computed over the full series. -/
theorem C3_causality (df : CandleSeries) (i : ℕ) (h : i < df.length) :
    inside_bar (df.take (i + 1)) i = inside_bar df i ∧
    orb_long (df.take (i + 1)) i = orb_long df i ∧
    orb_short (df.take (i + 1)) i = orb_short df i ∧
    rsi (df.take (i + 1)) i = rsi df i ∧
    macd_line (df.take (i + 1)) i = macd_line df i ∧
    macd_signal (df.take (i + 1)) i = macd_signal df i ∧
    atr (df.take (i + 1)) i = atr df i :=
  ⟨inside_bar_take, orb_long_take h, orb_short_take h, rsi_take,
    macd_line_take_at le_rfl, macd_signal_take, atr_take⟩

/-- C3 witness: causality of every field at index 5 of `exDf`. -/
theorem C3_causality_witness :
    5 < exDf.length ∧
    (inside_bar (exDf.take (5 + 1)) 5 = inside_bar exDf 5 ∧
      orb_long (exDf.take (5 + 1)) 5 = orb_long exDf 5 ∧
      orb_short (exDf.take (5 + 1)) 5 = orb_short exDf 5 ∧
      rsi (exDf.take (5 + 1)) 5 = rsi exDf 5 ∧
      macd_line (exDf.take (5 + 1)) 5 = macd_line exDf 5 ∧
      macd_signal (exDf.take (5 + 1)) 5 = macd_signal exDf 5 ∧
      atr (exDf.take (5 + 1)) 5 = atr exDf 5) :=
  ⟨by decide, C3_causality exDf 5 (by decide)⟩

/-- C4 counterexample: the claim's reading of `tr[0]` and of the ATR
window is false on the code: `np.maximum` propagates the `NaN` introduced
by `close.shift()` at index 0, so `tr[0]` is `NaN` (not `high[0]−low[0]`)
and the rolling mean at index 1 averages one value, not two. -/
theorem C4_counterexample :
    tr exC4 0 ≠ some (highAt exC4 0 - lowAt exC4 0) ∧
    atr exC4 1 ≠ some ((highAt exC4 0 - lowAt exC4 0 + trval exC4 1) / 2) := by
  constructor
  · simp [tr]
  · have h : atr exC4 1 = some 3 := by
      norm_num [atr, rollIdx, tr, trval, highAt, lowAt, closeAt, exC4, mkCandle,
        List.range_succ, abs_of_nonneg, List.filterMap_cons, List.filterMap_nil]
    rw [h]
    norm_num [highAt, lowAt, closeAt, trval, exC4, mkCandle, abs_of_nonneg]

/-- C4 amended: the true range is undefined (`NaN`) at index 0 and equals
`max(high−low, max(|high−prevClose|, |low−prevClose|))` at every `i ≥ 1`;
the ATR at `i ≥ 1` is the mean of the `min i 14` defined true-range values
of the window (the `NaN` at index 0 is skipped), and is undefined at 0. -/
theorem C4_amended (df : CandleSeries) (i : ℕ) (h1 : 1 ≤ i) :
    tr df 0 = none ∧ atr df 0 = none ∧
    tr df i = some (max (highAt df i - lowAt df i)
      (max |highAt df i - closeAt df (i - 1)| |lowAt df i - closeAt df (i - 1)|)) ∧
    atr df i = some (((List.range (min i 14)).map
      (fun j => trval df (i + 1 - min i 14 + j))).sum /
        ((min i 14 : ℕ) : ℚ)) := by
  refine ⟨rfl, ?_, ?_, ?_⟩
  · norm_num [atr, rollIdx, tr, List.range_succ, List.filterMap_cons]
  · unfold tr
    rw [if_neg (by omega)]
    rfl
  · have hvals := filterMap_tr_rollIdx df h1
    have hlen : ∀ l : List ℚ, l.length = min i 14 → l.isEmpty = false := by
      intro l hl
      cases l with
      | nil => simp at hl; omega
      | cons a t => rfl
    have hne : (((List.range (min i 14)).map
        (fun j => trval df (i + 1 - min i 14 + j))).isEmpty) = false :=
      hlen _ (by simp)
    simp only [atr, hvals, hne, Bool.false_eq_true, if_false,
      List.length_map, List.length_range]

/-- C4 amended witness: the two-candle series `exC4` at index 1. -/
theorem C4_amended_witness :
    1 ≤ 1 ∧
    (tr exC4 0 = none ∧ atr exC4 0 = none ∧
      tr exC4 1 = some (max (highAt exC4 1 - lowAt exC4 1)
        (max |highAt exC4 1 - closeAt exC4 (1 - 1)|
          |lowAt exC4 1 - closeAt exC4 (1 - 1)|)) ∧
      atr exC4 1 = some (((List.range (min 1 14)).map
        (fun j => trval exC4 (1 + 1 - min 1 14 + j))).sum /
          ((min 1 14 : ℕ) : ℚ))) :=
  ⟨le_rfl, C4_amended exC4 1 le_rfl⟩

/-- C10: when every candle closes at or below its high, the inside-bar
breakout trigger can never fire, so no intent of the scan carries the
rationale "Inside Bar Breakout". -/
theorem C10_ohlc_no_inside_breakout (df : CandleSeries)
    (hc : ∀ c ∈ df, c.close ≤ c.high) :
    ∀ t ∈ scan df, t.rationale ≠ "Inside Bar Breakout" := by
  intro t ht
  unfold scan at ht
  obtain ⟨k, hk, htk⟩ := List.mem_flatMap.1 ht
  have hk' : k < df.length - 1 := List.mem_range.1 hk
  have hilen : k + 1 < df.length := by omega
  unfold intentsAt at htk
  rcases List.mem_append.1 htk with h | h
  · rcases List.mem_append.1 h with h | h
    · by_cases hcond :
        (inside_bar df (k + 1) && decide (closeAt df (k + 1) > highAt df (k + 1 - 1))) = true
      · exfalso
        rw [Bool.and_eq_true] at hcond
        obtain ⟨hib, hgt⟩ := hcond
        have hib' := (inside_bar_iff (by omega)).1 hib
        have hgt' : closeAt df (k + 1) > highAt df (k + 1 - 1) :=
          of_decide_eq_true hgt
        have hch : closeAt df (k + 1) ≤ highAt df (k + 1) :=
          hc (df.getD (k + 1) default) (getD_mem hilen)
        have := hib'.1
        linarith
      · rw [if_neg hcond] at h
        cases h
    · split at h
      · have ht' := List.mem_singleton.1 h
        subst ht'
        simp
      · cases h
  · split at h
    · have ht' := List.mem_singleton.1 h
      subst ht'
      simp
    · cases h

/-- C10 witness: an OHLC-consistent series with a (long ORB) signal. -/
theorem C10_ohlc_no_inside_breakout_witness :
    (∀ c ∈ exOhlc, c.close ≤ c.high) ∧
    (∀ t ∈ scan exOhlc, t.rationale ≠ "Inside Bar Breakout") :=
  ⟨by decide, C10_ohlc_no_inside_breakout exOhlc (by decide)⟩

/-- C7: whenever `orb_short` flags an index `1 ≤ i < N`, the scan contains
a SHORT intent at `i` with reference price `close[i]`, raw stop
`high[i-1]` and raw target `close[i] − (high[i-1] − close[i]) × 2`. -/
theorem C7_orb_short_intent (df : CandleSeries) (i : ℕ) (h1 : 1 ≤ i)
    (h2 : i < df.length) (ho : orb_short df i = true) :
    (⟨.SHORT, i, closeAt df i, highAt df (i - 1),
      closeAt df i - (highAt df (i - 1) - closeAt df i) * 2,
      "Opening Range Breakout"⟩ : TradeIntent) ∈ scan df := by
  unfold scan
  rw [List.mem_flatMap]
  refine ⟨i - 1, List.mem_range.2 (by omega), ?_⟩
  have hi : i - 1 + 1 = i := by omega
  rw [hi]
  unfold intentsAt
  apply List.mem_append_right
  rw [if_pos ho]
  exact List.mem_singleton.2 rfl

/-- C7 witness: the last candle of `exOrbShort` breaks the opening low. -/
theorem C7_orb_short_intent_witness :
    1 ≤ 5 ∧ 5 < exOrbShort.length ∧ orb_short exOrbShort 5 = true ∧
    (⟨.SHORT, 5, closeAt exOrbShort 5, highAt exOrbShort 4,
      closeAt exOrbShort 5 - (highAt exOrbShort 4 - closeAt exOrbShort 5) * 2,
      "Opening Range Breakout"⟩ : TradeIntent) ∈ scan exOrbShort :=
  ⟨by decide, by decide, by decide,
    C7_orb_short_intent exOrbShort 5 (by decide) (by decide) (by decide)⟩

/-- C2: in a 10-candle series where candle 5 is strictly inside candle 4's
range and closes above candle 4's high, the scan produces exactly one
intent at index 5: a LONG with rationale "Inside Bar Breakout", raw stop
`low[4]` and raw target `close[5] + (close[5] − low[4]) × 2`. -/
theorem C2_inside_bar_scenario (df : CandleSeries) (h10 : df.length = 10)
    (hh : highAt df 4 > highAt df 5) (hl : lowAt df 4 < lowAt df 5)
    (hbr : closeAt df 5 > highAt df 4) :
    (scan df).filter (fun t => t.index == 5) =
      [⟨.LONG, 5, closeAt df 5, lowAt df 4,
        closeAt df 5 + (closeAt df 5 - lowAt df 4) * 2,
        "Inside Bar Breakout"⟩] := by
  rw [filter_scan_eq df 5 (by omega) (by omega)]
  have hib : inside_bar df 5 = true := (inside_bar_iff (by omega)).2 ⟨hh, hl⟩
  have hol : orb_long df 5 = false := by
    unfold orb_long
    simp only [decide_eq_false_iff_not, not_lt, gt_iff_lt]
    have h4 : highAt df 4 ≤ openingHigh df 5 :=
      le_openingHigh (by omega) (by omega)
    linarith
  have hos : orb_short df 5 = false := by
    unfold orb_short
    simp only [decide_eq_false_iff_not, not_lt]
    have h4 : openingLow df 5 ≤ lowAt df 4 := openingLow_le (by omega) (by omega)
    linarith
  have hcond :
      (inside_bar df 5 && decide (closeAt df 5 > highAt df (5 - 1))) = true := by
    rw [hib]
    simpa using hbr
  unfold intentsAt
  simp [hcond, hol, hos]

/-- C2 witness: the concrete series `exDf`. -/
theorem C2_inside_bar_scenario_witness :
    exDf.length = 10 ∧ highAt exDf 4 > highAt exDf 5 ∧
    lowAt exDf 4 < lowAt exDf 5 ∧ closeAt exDf 5 > highAt exDf 4 ∧
    (scan exDf).filter (fun t => t.index == 5) =
      [⟨.LONG, 5, closeAt exDf 5, lowAt exDf 4,
        closeAt exDf 5 + (closeAt exDf 5 - lowAt exDf 4) * 2,
        "Inside Bar Breakout"⟩] :=
  ⟨by decide, by decide, by decide, by decide,
    C2_inside_bar_scenario exDf (by decide) (by decide) (by decide) (by decide)⟩

/-- C6: the RSI column always lies between 0 and 100. -/
theorem C6_rsi_bounds (df : CandleSeries) (i : ℕ) :
    0 ≤ rsi df i ∧ rsi df i ≤ 100 := by
  have hg : 0 ≤ avg_gain df i := rollMean_nonneg (gain_nonneg df) 14 i
  have hl : 0 ≤ avg_loss df i := rollMean_nonneg (loss_nonneg df) 14 i
  have hrs : 0 ≤ rs df i := by
    unfold rs
    exact div_nonneg hg (by linarith)
  have h1 : (0 : ℚ) < 1 + rs df i := by linarith
  unfold rsi
  constructor
  · have h2 : 100 / (1 + rs df i) ≤ 100 := by
      rw [div_le_iff₀ h1]
      nlinarith
    linarith
  · have h3 : 0 ≤ 100 / (1 + rs df i) := by positivity
    linarith

end Backtest
